import Mathlib

/-!
# Verification of the nucleus-google-ads-framework core

Shallow embedding of the admission / scheduling / caching / retry pipeline
(`src/core/errors.py`, `src/core/quota.py`, `src/core/cache.py`,
`src/core/scheduler.py`, `src/core/google_ads_manager.py`) together with
theorems settling the specification claims.

Modelling conventions:
* Python values that flow through the cache are modelled by `PyVal`
  (Python `None` is `PyVal.pynone`; truthiness mirrors Python).
* Redis is modelled per keyspace: the quota counters as a
  `String → Except Unit (Option Int)` (an `Except.error` models a raised
  store exception, `Option` models key absence), the cache tier as an
  association list from full key to the decoded JSON value.
* `float` arithmetic in `can_run` (`0.15 * global_daily`) is modelled
  exactly over the integers (`100 * r < 15 * d`).
* Coroutines are sequentialised: the pipeline submits one operation and
  awaits the drain, so the submitted closure runs to completion before
  `execute_gaql` / `execute_mutate` return.
-/

namespace Nucleus

/-- Model of a Python value as stored in / returned from the caches.
Lists are encoded with explicit nil/cons constructors so that the empty
list (`pyListNil`) is distinguishable and equality stays decidable. -/
inductive PyVal where
  | pynone
  | pyint (n : Int)
  | pystr (s : String)
  | pyListNil
  | pyListCons (hd tl : PyVal)
deriving DecidableEq, Repr

/-- Python truthiness (`if result:`). -/
def PyVal.truthy : PyVal → Bool
  | .pynone => false
  | .pyint n => n != 0
  | .pystr s => !(s == "")
  | .pyListNil => false
  | .pyListCons _ _ => true

/-! ## Error taxonomy (`src/core/errors.py`) -/

/-- `ErrorCategory` enumeration from `errors.py`. -/
inductive ErrorCategory where
  | authentication
  | authorization
  | quota
  | rateLimit
  | validation
  | notFound
  | conflict
  | internal
  | externalApi
  | timeout
  | circuitBreaker
deriving DecidableEq, Repr

/-- The concrete `AdsAPIError` subclass an exception was constructed from
(`isinstance` checks in the retry policy dispatch on this). -/
inductive ErrCls where
  | authenticationError
  | authorizationError
  | quotaExceededError
  | rateLimitError
  | validationError
  | notFoundError
  | conflictError
  | timeoutError
  | circuitBreakerError
  | externalApiError
  | internalError
deriving DecidableEq, Repr

/-- The `ErrorDetail` payload carried by every `AdsAPIError`, plus the
class tag of the exception object itself. -/
structure AdsErr where
  cls : ErrCls
  category : ErrorCategory
  code : String
  httpStatus : Nat
  retryable : Bool
deriving DecidableEq, Repr

def mkAuthenticationError : AdsErr :=
  ⟨.authenticationError, .authentication, "AUTH_FAILED", 401, false⟩

def mkAuthorizationError : AdsErr :=
  ⟨.authorizationError, .authorization, "PERMISSION_DENIED", 403, false⟩

def mkQuotaExceededError : AdsErr :=
  ⟨.quotaExceededError, .quota, "QUOTA_EXCEEDED", 429, true⟩

def mkRateLimitError : AdsErr :=
  ⟨.rateLimitError, .rateLimit, "RATE_LIMIT_EXCEEDED", 429, true⟩

def mkValidationError : AdsErr :=
  ⟨.validationError, .validation, "VALIDATION_ERROR", 400, false⟩

def mkNotFoundError : AdsErr :=
  ⟨.notFoundError, .notFound, "NOT_FOUND", 404, false⟩

def mkConflictError : AdsErr :=
  ⟨.conflictError, .conflict, "CONFLICT", 409, false⟩

def mkTimeoutError : AdsErr :=
  ⟨.timeoutError, .timeout, "TIMEOUT", 504, true⟩

def mkCircuitBreakerError : AdsErr :=
  ⟨.circuitBreakerError, .circuitBreaker, "CIRCUIT_BREAKER_OPEN", 503, true⟩

/-- `ExternalAPIError(...)` takes an explicit `retryable` argument
(default `False` in the Python constructor). -/
def mkExternalApiError (retryable : Bool) : AdsErr :=
  ⟨.externalApiError, .externalApi, "EXTERNAL_API_ERROR", 502, retryable⟩

def mkInternalError : AdsErr :=
  ⟨.internalError, .internal, "INTERNAL_ERROR", 500, false⟩

/-- `GOOGLE_ADS_ERROR_MAP.get(error_code, ExternalAPIError)` as an
if-chain over the dict keys. -/
def classOf (code : String) : ErrCls :=
  if code = "AUTHENTICATION_ERROR" then .authenticationError
  else if code = "AUTHORIZATION_ERROR" then .authorizationError
  else if code = "QUOTA_ERROR" then .quotaExceededError
  else if code = "RATE_LIMIT_ERROR" then .rateLimitError
  else if code = "RESOURCE_EXHAUSTED" then .quotaExceededError
  else if code = "INVALID_ARGUMENT" then .validationError
  else if code = "NOT_FOUND" then .notFoundError
  else if code = "ALREADY_EXISTS" then .conflictError
  else if code = "DEADLINE_EXCEEDED" then .timeoutError
  else if code = "INTERNAL_ERROR" then .internalError
  else if code = "UNAVAILABLE" then .externalApiError
  else .externalApiError

/-- Keys of `GOOGLE_ADS_ERROR_MAP`. -/
def knownGoogleAdsCodes : List String :=
  ["AUTHENTICATION_ERROR", "AUTHORIZATION_ERROR", "QUOTA_ERROR",
   "RATE_LIMIT_ERROR", "RESOURCE_EXHAUSTED", "INVALID_ARGUMENT",
   "NOT_FOUND", "ALREADY_EXISTS", "DEADLINE_EXCEEDED", "INTERNAL_ERROR",
   "UNAVAILABLE"]

/-- `retryable = error_code in [...]` inside `map_google_ads_exception`. -/
def isRetryableCode (code : String) : Bool :=
  code == "QUOTA_ERROR" || code == "RATE_LIMIT_ERROR" ||
  code == "RESOURCE_EXHAUSTED" || code == "DEADLINE_EXCEEDED" ||
  code == "UNAVAILABLE"

/-- Default-construct the error class, as `error_class(message=...)` does
for every class other than `ExternalAPIError`. -/
def classDefaultError : ErrCls → AdsErr
  | .authenticationError => mkAuthenticationError
  | .authorizationError => mkAuthorizationError
  | .quotaExceededError => mkQuotaExceededError
  | .rateLimitError => mkRateLimitError
  | .validationError => mkValidationError
  | .notFoundError => mkNotFoundError
  | .conflictError => mkConflictError
  | .timeoutError => mkTimeoutError
  | .circuitBreakerError => mkCircuitBreakerError
  | .externalApiError => mkExternalApiError false
  | .internalError => mkInternalError

/-- `map_google_ads_exception`, as a function of the exception's
`error_code` attribute (messages and structured details are dropped). -/
def mapGoogleAdsException (errorCode : String) : AdsErr :=
  let errorClass := classOf errorCode
  let retryable := isRetryableCode errorCode
  if errorClass = .externalApiError then mkExternalApiError retryable
  else classDefaultError errorClass

/-- CLAIM C5: `map_google_ads_exception` returns an error whose retryable
bit is true exactly for the kinds QUOTA, RATE_LIMIT, TIMEOUT,
CIRCUIT_BREAKER, and for EXTERNAL_API exactly when the upstream error code
is UNAVAILABLE or DEADLINE_EXCEEDED; every upstream code not in the
mapping table yields EXTERNAL_API with retryable = false. -/
theorem map_google_ads_exception_retryable_classification (code : String) :
    ((mapGoogleAdsException code).retryable = true ↔
      ((mapGoogleAdsException code).category = .quota ∨
       (mapGoogleAdsException code).category = .rateLimit ∨
       (mapGoogleAdsException code).category = .timeout ∨
       (mapGoogleAdsException code).category = .circuitBreaker ∨
       ((mapGoogleAdsException code).category = .externalApi ∧
         (code = "UNAVAILABLE" ∨ code = "DEADLINE_EXCEEDED")))) ∧
    (code ∉ knownGoogleAdsCodes →
      (mapGoogleAdsException code).category = .externalApi ∧
      (mapGoogleAdsException code).retryable = false) := by
  by_cases hk : code ∈ knownGoogleAdsCodes
  · simp only [knownGoogleAdsCodes, List.mem_cons, List.mem_singleton,
      List.not_mem_nil, or_false] at hk
    rcases hk with h | h | h | h | h | h | h | h | h | h | h <;> subst h <;> decide
  · simp only [knownGoogleAdsCodes, List.mem_cons, List.mem_singleton,
      List.not_mem_nil, or_false, not_or] at hk
    obtain ⟨n1, n2, n3, n4, n5, n6, n7, n8, n9, n10, n11⟩ := hk
    constructor
    · simp [mapGoogleAdsException, classOf, isRetryableCode,
        n1, n2, n3, n4, n5, n6, n7, n8, n9, n10, n11, mkExternalApiError]
    · intro _
      simp [mapGoogleAdsException, classOf, isRetryableCode,
        n1, n2, n3, n4, n5, n6, n7, n8, n9, n10, n11, mkExternalApiError]

/-- Witness for C5: a code absent from the mapping table yields
EXTERNAL_API with retryable = false; UNAVAILABLE yields a retryable error. -/
theorem map_google_ads_exception_retryable_classification_witness :
    ((mapGoogleAdsException "FROZEN_ACCOUNT").category = .externalApi ∧
      (mapGoogleAdsException "FROZEN_ACCOUNT").retryable = false) ∧
    (mapGoogleAdsException "UNAVAILABLE").retryable = true :=
  ⟨(map_google_ads_exception_retryable_classification "FROZEN_ACCOUNT").2
      (by decide),
   (map_google_ads_exception_retryable_classification "UNAVAILABLE").1.mpr
      (by decide)⟩

/-! ## Quota governor (`src/core/quota.py`) -/

/-- SLA tier enumeration. -/
inductive SLATier where
  | gold
  | silver
  | bronze
deriving DecidableEq, Repr

/-- The Redis quota keyspace: a read either raises (`Except.error`) or
returns the stored integer (`none` for an absent key). -/
def RStore : Type := String → Except Unit (Option Int)

def globalRemainingKey : String := "quota:global_remaining"

def globalDailyKey : String := "quota:global_daily"

def clientRemainingKey (clientId : String) : String :=
  "quota:client:" ++ clientId ++ ":remaining"

/-- A single key write on the quota store. -/
def storeSet (s : RStore) (k : String) (v : Int) : RStore :=
  fun k' => if k' = k then .ok (some v) else s k'

/-- The balance a reader observes: `int(await redis.get(k) or 0)`. -/
def readBal (s : RStore) (k : String) : Int :=
  match s k with
  | .ok (some v) => v
  | _ => 0

/-- `QuotaGovernor.can_run`.  The three reads happen before any check;
any raised store error is caught and the function fails open (`True`).
The bronze reserve comparison `global_remaining < 0.15 * global_daily`
is modelled exactly over the integers as `100 * r < 15 * d`. -/
def canRun (s : RStore) (clientId : String) (units : Int)
    (tier : SLATier) : Bool :=
  match s globalRemainingKey, s (clientRemainingKey clientId),
      s globalDailyKey with
  | .ok gr?, .ok cr?, .ok gd? =>
    let globalRemaining := gr?.getD 0
    let clientRemaining := cr?.getD 0
    let globalDaily := gd?.getD 1
    if globalRemaining < units ∨ clientRemaining < units then false
    else if tier = .bronze ∧ 100 * globalRemaining < 15 * globalDaily then
      false
    else true
  | _, _, _ => true

/-- `QuotaGovernor.charge`: pipelined `DECRBY` on the global and the
per-client balance (a missing key counts as 0); a store error is caught
and leaves the store unchanged. -/
def quotaCharge (s : RStore) (clientId : String) (units : Int) : RStore :=
  match s globalRemainingKey, s (clientRemainingKey clientId) with
  | .ok _, .ok _ =>
    let s1 := storeSet s globalRemainingKey
      (readBal s globalRemainingKey - units)
    storeSet s1 (clientRemainingKey clientId)
      (readBal s1 (clientRemainingKey clientId) - units)
  | _, _ => s

/-- `QuotaGovernor.refund`: the symmetric pipelined `INCRBY`. -/
def quotaRefund (s : RStore) (clientId : String) (units : Int) : RStore :=
  match s globalRemainingKey, s (clientRemainingKey clientId) with
  | .ok _, .ok _ =>
    let s1 := storeSet s globalRemainingKey
      (readBal s globalRemainingKey + units)
    storeSet s1 (clientRemainingKey clientId)
      (readBal s1 (clientRemainingKey clientId) + units)
  | _, _ => s

theorem storeSet_same (s : RStore) (k : String) (v : Int) :
    storeSet s k v k = .ok (some v) := by
  simp [storeSet]

theorem storeSet_other (s : RStore) (k : String) (v : Int) (k' : String)
    (h : k' ≠ k) : storeSet s k v k' = s k' := by
  simp [storeSet, h]

theorem readBal_eq (s : RStore) (k : String) (v : Int)
    (h : s k = .ok (some v)) : readBal s k = v := by
  unfold readBal
  rw [h]

/-- The per-client remaining key never collides with the global key. -/
theorem clientRemainingKey_ne_global (c : String) :
    clientRemainingKey c ≠ globalRemainingKey := by
  intro h
  have hlen := congrArg String.length h
  have h1 : ("quota:client:" : String).length = 13 := by decide
  have h2 : (":remaining" : String).length = 10 := by decide
  have h3 : globalRemainingKey.length = 22 := by decide
  rw [clientRemainingKey, String.length_append, String.length_append, h1, h2,
    h3] at hlen
  omega

/-- CLAIM C3: whenever both balances cover `units` but the global balance
is below the 15% bronze reserve, `can_run` refuses BRONZE and admits GOLD
and SILVER. -/
theorem can_run_bronze_reserve (s : RStore) (clientId : String)
    (units gr cr gd : Int)
    (hgr : s globalRemainingKey = .ok (some gr))
    (hcr : s (clientRemainingKey clientId) = .ok (some cr))
    (hgd : s globalDailyKey = .ok (some gd))
    (hgu : units ≤ gr) (hcu : units ≤ cr)
    (hres : 100 * gr < 15 * gd) :
    canRun s clientId units .bronze = false ∧
    canRun s clientId units .gold = true ∧
    canRun s clientId units .silver = true := by
  unfold canRun
  rw [hgr, hcr, hgd]
  simp only [Option.getD_some]
  have h1 : ¬(gr < units ∨ cr < units) := by omega
  refine ⟨?_, ?_, ?_⟩ <;> simp [h1, hres]

/-- Witness for C3 at concrete balances: daily 10000, global remaining
1000 (10%), client remaining 500, request of 100 units. -/
theorem can_run_bronze_reserve_witness :
    canRun
      (fun k =>
        if k = globalRemainingKey then .ok (some 1000)
        else if k = "quota:client:t1:remaining" then .ok (some 500)
        else if k = globalDailyKey then .ok (some 10000)
        else .ok none)
      "t1" 100 .bronze = false ∧
    canRun
      (fun k =>
        if k = globalRemainingKey then .ok (some 1000)
        else if k = "quota:client:t1:remaining" then .ok (some 500)
        else if k = globalDailyKey then .ok (some 10000)
        else .ok none)
      "t1" 100 .gold = true := by
  have h := can_run_bronze_reserve
    (fun k =>
      if k = globalRemainingKey then .ok (some 1000)
      else if k = "quota:client:t1:remaining" then .ok (some 500)
      else if k = globalDailyKey then .ok (some 10000)
      else .ok none)
    "t1" 100 1000 500 10000 rfl rfl rfl (by decide) (by decide) (by decide)
  exact ⟨h.1, h.2.1⟩

/-- CLAIM C8: if any of the three store reads in `can_run` raises, the
exception is caught and `can_run` returns true (fail-open). -/
theorem can_run_fail_open (s : RStore) (clientId : String) (units : Int)
    (tier : SLATier)
    (herr : s globalRemainingKey = .error () ∨
      s (clientRemainingKey clientId) = .error () ∨
      s globalDailyKey = .error ()) :
    canRun s clientId units tier = true := by
  unfold canRun
  rcases herr with h | h | h
  · rw [h]
  · rw [h]
    cases s globalRemainingKey <;> rfl
  · rw [h]
    cases s globalRemainingKey <;> cases s (clientRemainingKey clientId) <;>
      rfl

/-- Witness for C8: a store whose global-remaining read raises. -/
theorem can_run_fail_open_witness :
    canRun
      (fun k => if k = globalRemainingKey then .error () else .ok (some 7))
      "t1" 100 .bronze = true :=
  can_run_fail_open
    (fun k => if k = globalRemainingKey then .error () else .ok (some 7))
    "t1" 100 .bronze (Or.inl rfl)

/-- CLAIM C7: a successful `charge(t, u)` followed by `refund(t, u)`, with
no debit or store write in between, restores the observed balances
`quota:global_remaining` and `quota:client:{t}:remaining` to their
pre-charge values. -/
theorem charge_refund_roundtrip (s : RStore) (clientId : String)
    (units : Int)
    (hg : ∃ v, s globalRemainingKey = .ok v)
    (hc : ∃ v, s (clientRemainingKey clientId) = .ok v) :
    readBal (quotaRefund (quotaCharge s clientId units) clientId units)
        globalRemainingKey = readBal s globalRemainingKey ∧
    readBal (quotaRefund (quotaCharge s clientId units) clientId units)
        (clientRemainingKey clientId) =
      readBal s (clientRemainingKey clientId) := by
  obtain ⟨gv, hg⟩ := hg
  obtain ⟨cv, hc⟩ := hc
  have hkey : clientRemainingKey clientId ≠ globalRemainingKey :=
    clientRemainingKey_ne_global clientId
  have hkey' : globalRemainingKey ≠ clientRemainingKey clientId :=
    fun h => hkey h.symm
  have h1 : quotaCharge s clientId units =
      storeSet (storeSet s globalRemainingKey
          (readBal s globalRemainingKey - units))
        (clientRemainingKey clientId)
        (readBal (storeSet s globalRemainingKey
            (readBal s globalRemainingKey - units))
          (clientRemainingKey clientId) - units) := by
    unfold quotaCharge
    rw [hg, hc]
  have hb : readBal (storeSet s globalRemainingKey
      (readBal s globalRemainingKey - units))
      (clientRemainingKey clientId) = readBal s (clientRemainingKey clientId)
    := by
    unfold readBal
    rw [storeSet_other _ _ _ _ hkey]
  have c1 : quotaCharge s clientId units globalRemainingKey =
      .ok (some (readBal s globalRemainingKey - units)) := by
    rw [h1, storeSet_other _ _ _ _ hkey', storeSet_same]
  have c2 : quotaCharge s clientId units (clientRemainingKey clientId) =
      .ok (some (readBal s (clientRemainingKey clientId) - units)) := by
    rw [h1, storeSet_same, hb]
  have h2 : quotaRefund (quotaCharge s clientId units) clientId units =
      storeSet (storeSet (quotaCharge s clientId units) globalRemainingKey
          (readBal (quotaCharge s clientId units) globalRemainingKey + units))
        (clientRemainingKey clientId)
        (readBal (storeSet (quotaCharge s clientId units) globalRemainingKey
            (readBal (quotaCharge s clientId units) globalRemainingKey +
              units))
          (clientRemainingKey clientId) + units) := by
    unfold quotaRefund
    rw [c1, c2]
  have rg : readBal (quotaCharge s clientId units) globalRemainingKey =
      readBal s globalRemainingKey - units := readBal_eq _ _ _ c1
  have hb2 : readBal (storeSet (quotaCharge s clientId units)
      globalRemainingKey
      (readBal (quotaCharge s clientId units) globalRemainingKey + units))
      (clientRemainingKey clientId) =
      readBal s (clientRemainingKey clientId) - units := by
    rw [readBal_eq _ _ _ (by rw [storeSet_other _ _ _ _ hkey, c2])]
  have finalG : quotaRefund (quotaCharge s clientId units) clientId units
      globalRemainingKey =
      .ok (some (readBal (quotaCharge s clientId units) globalRemainingKey +
        units)) := by
    rw [h2, storeSet_other _ _ _ _ hkey', storeSet_same]
  have finalC : quotaRefund (quotaCharge s clientId units) clientId units
      (clientRemainingKey clientId) =
      .ok (some (readBal (storeSet (quotaCharge s clientId units)
          globalRemainingKey
          (readBal (quotaCharge s clientId units) globalRemainingKey + units))
        (clientRemainingKey clientId) + units)) := by
    rw [h2, storeSet_same]
  constructor
  · rw [readBal_eq _ _ _ finalG, rg]
    omega
  · rw [readBal_eq _ _ _ finalC, hb2]
    omega

/-- Witness for C7 at a concrete store. -/
theorem charge_refund_roundtrip_witness :
    readBal
      (quotaRefund
        (quotaCharge
          (fun k =>
            if k = globalRemainingKey then .ok (some 900)
            else if k = "quota:client:t2:remaining" then .ok (some 40)
            else .ok none)
          "t2" 10)
        "t2" 10)
      globalRemainingKey = 900 := by
  have h := charge_refund_roundtrip
    (fun k =>
      if k = globalRemainingKey then .ok (some 900)
      else if k = "quota:client:t2:remaining" then .ok (some 40)
      else .ok none)
    "t2" 10 ⟨some 900, rfl⟩ ⟨some 40, rfl⟩
  exact h.1.trans (by norm_num [readBal])

/-! ## Cache key construction (`CacheManager.build_cache_key`) -/

/-- Lexicographic code-point comparison on character lists (Python string
`<=`). -/
def charListLe : List Char → List Char → Bool
  | [], _ => true
  | _ :: _, [] => false
  | x :: xs, y :: ys =>
    if x.toNat < y.toNat then true
    else if x.toNat = y.toNat then charListLe xs ys else false

def strLe (a b : String) : Bool := charListLe a.data b.data

def insertParam (p : String × String) :
    List (String × String) → List (String × String)
  | [] => [p]
  | q :: rest =>
    if strLe p.1 q.1 then p :: q :: rest else q :: insertParam p rest

/-- `sorted(params.items())`: dict keys are unique, so Python's tuple sort
is a sort by key (stable insertion sort). -/
def sortParams : List (String × String) → List (String × String)
  | [] => []
  | p :: rest => insertParam p (sortParams rest)

/-- `build_cache_key`: keyword parameters are rendered `k=v`, sorted,
joined with `:` and appended to `client:{client_id}:{operation}`.
Parameter values arrive already rendered to strings by the f-string. -/
def buildCacheKey (clientId operation : String)
    (params : List (String × String)) : String :=
  let paramStr := String.intercalate ":" ((sortParams params).map
    (fun p => p.1 ++ "=" ++ p.2))
  if paramStr ≠ "" then
    "client:" ++ clientId ++ ":" ++ operation ++ ":" ++ paramStr
  else
    "client:" ++ clientId ++ ":" ++ operation

/-- CLAIM C9: `build_cache_key` is not injective in the parameter map:
a single value embedding the `:` and `=` separators collides with the
two-entry map it encodes, for the same client and operation. -/
theorem build_cache_key_not_injective :
    buildCacheKey "c1" "gaql" [("a", "1:b=2")] =
      buildCacheKey "c1" "gaql" [("a", "1"), ("b", "2")] ∧
    [("a", "1:b=2")] ≠ [("a", "1"), ("b", "2")] := by
  constructor
  · rfl
  · decide

/-! ## Priority scheduler (`src/core/scheduler.py`) -/

/-- A scheduled `Operation`.  The work closure (`fn`, `args`, `kwargs`) is
not representable as data and is dropped; `timestamp` stands for the
monotone `time.time()` value captured at submission. -/
structure Operation where
  priority : Nat
  timestamp : Nat
  clientId : String
  tier : SLATier
  urgency : Nat
deriving DecidableEq, Repr

/-- `SLA_WEIGHT` (the tier enum covers every key, so the `.get(_, 1)`
default is never taken). -/
def slaWeight : SLATier → Nat
  | .gold => 3
  | .silver => 2
  | .bronze => 1

/-- `max(0, min(urgency, 99))`. -/
def clampUrgency (urgency : Int) : Nat := (max 0 (min urgency 99)).toNat

/-- Priority computed in `PriorityScheduler.submit`. -/
def submitPriority (tier : SLATier) (urgency : Int) : Nat :=
  (100 - clampUrgency urgency) / slaWeight tier

/-- `submit`: enqueue a new operation built from tier/urgency/timestamp. -/
def submitOp (q : List Operation) (clientId : String) (tier : SLATier)
    (urgency : Int) (ts : Nat) : List Operation :=
  q ++ [⟨submitPriority tier urgency, ts, clientId, tier,
    clampUrgency urgency⟩]

/-- `Operation.__lt__`: by priority, then by timestamp. -/
def opLt (a b : Operation) : Bool :=
  if a.priority ≠ b.priority then a.priority < b.priority
  else a.timestamp < b.timestamp

theorem opLt_iff (a b : Operation) :
    opLt a b = true ↔
      (a.priority < b.priority ∨
        (a.priority = b.priority ∧ a.timestamp < b.timestamp)) := by
  unfold opLt
  split_ifs with h
  · simp only [decide_eq_true_eq]
    omega
  · simp only [decide_eq_true_eq]
    omega

theorem opLt_eq_false_iff (a b : Operation) :
    opLt a b = false ↔
      ¬(a.priority < b.priority ∨
        (a.priority = b.priority ∧ a.timestamp < b.timestamp)) := by
  rw [← opLt_iff]
  simp

/-- The priority queue's blocking `get`: remove a minimal element under
`__lt__` (the heap pops an element no other element is less than; ties on
both fields are broken arbitrarily, here by list position). -/
def popMin : List Operation → Option (Operation × List Operation)
  | [] => none
  | x :: xs =>
    match popMin xs with
    | none => some (x, [])
    | some (m, rest) => if opLt m x then some (m, x :: rest) else some (x, xs)

/-- Repeatedly dequeue (with fuel). -/
def drainQueue : Nat → List Operation → List Operation
  | 0, _ => []
  | fuel + 1, q =>
    match popMin q with
    | none => []
    | some (m, rest) => m :: drainQueue fuel rest

theorem popMin_cons_none (x : Operation) (xs : List Operation)
    (h : popMin xs = none) : popMin (x :: xs) = some (x, []) := by
  unfold popMin
  rw [h]

theorem popMin_cons_some (x : Operation) (xs : List Operation)
    (m' : Operation) (rest' : List Operation)
    (h : popMin xs = some (m', rest')) :
    popMin (x :: xs) =
      if opLt m' x then some (m', x :: rest') else some (x, xs) := by
  unfold popMin
  rw [h]

theorem popMin_eq_none {q : List Operation} (h : popMin q = none) :
    q = [] := by
  cases q with
  | nil => rfl
  | cons x xs =>
    cases hxs : popMin xs with
    | none => rw [popMin_cons_none x xs hxs] at h; cases h
    | some p => rw [popMin_cons_some x xs p.1 p.2 hxs] at h; revert h; split_ifs <;> intro h <;> cases h

theorem popMin_is_min {q : List Operation} {m : Operation}
    {rest : List Operation} (h : popMin q = some (m, rest)) :
    ∀ o ∈ q, opLt o m = false := by
  induction q generalizing m rest with
  | nil => simp [popMin] at h
  | cons x xs ih =>
    intro o ho
    cases hxs : popMin xs with
    | none =>
      have hnil := popMin_eq_none hxs
      subst hnil
      rw [popMin_cons_none x [] hxs] at h
      have hm : x = m := by
        injection h with h1
        injection h1
      subst hm
      simp only [List.mem_singleton] at ho
      subst ho
      rw [opLt_eq_false_iff]
      omega
    | some p =>
      obtain ⟨m', rest'⟩ := p
      rw [popMin_cons_some x xs m' rest' hxs] at h
      rcases List.mem_cons.mp ho with rfl | hmem
      · by_cases hlt : opLt m' o = true
        · rw [if_pos hlt] at h
          have hm : m' = m := by
            injection h with h1
            injection h1
          subst hm
          rw [opLt_eq_false_iff]
          rw [opLt_iff] at hlt
          omega
        · rw [if_neg hlt] at h
          have hm : o = m := by
            injection h with h1
            injection h1
          subst hm
          rw [opLt_eq_false_iff]
          omega
      · by_cases hlt : opLt m' x = true
        · rw [if_pos hlt] at h
          have hm : m' = m := by
            injection h with h1
            injection h1
          subst hm
          exact ih hxs o hmem
        · rw [if_neg hlt] at h
          have hm : x = m := by
            injection h with h1
            injection h1
          subst hm
          have h1 := ih hxs o hmem
          have h2 : opLt m' x = false := by
            rwa [Bool.not_eq_true] at hlt
          rw [opLt_eq_false_iff] at h1 h2 ⊢
          omega

/-- CLAIM C4: `submit` assigns priority
`(100 - clamp(urgency, 0, 99)) / tier_weight` (integer division, GOLD 3,
SILVER 2, BRONZE 1); the queue always dequeues an element minimal in
`(priority, timestamp)` order; and the Bronze-99 / Gold-50 / Silver-50 mix
gets priorities 1 / 16 / 25 and dequeues in that order. -/
theorem scheduler_priority_and_dequeue_order :
    (∀ (tier : SLATier) (urgency : Int),
      submitPriority tier urgency =
        (100 - clampUrgency urgency) / slaWeight tier) ∧
    submitPriority .bronze 99 = 1 ∧
    submitPriority .gold 50 = 16 ∧
    submitPriority .silver 50 = 25 ∧
    (∀ (q : List Operation) (m : Operation) (rest : List Operation),
      popMin q = some (m, rest) → ∀ o ∈ q, opLt o m = false) ∧
    drainQueue 3
        (submitOp (submitOp (submitOp [] "tb" .bronze 99 0)
          "tg" .gold 50 1) "ts" .silver 50 2) =
      [⟨1, 0, "tb", .bronze, 99⟩, ⟨16, 1, "tg", .gold, 50⟩,
        ⟨25, 2, "ts", .silver, 50⟩] := by
  refine ⟨fun _ _ => rfl, by decide, by decide, by decide, ?_, by decide⟩
  intro q m rest h o ho
  exact popMin_is_min h o ho

/-- Witness for C4: the dequeue-minimality clause applied to the concrete
three-operation queue of the scenario. -/
theorem scheduler_priority_and_dequeue_order_witness :
    opLt ⟨16, 1, "tg", .gold, 50⟩ ⟨1, 0, "tb", .bronze, 99⟩ = false := by
  have h := scheduler_priority_and_dequeue_order.2.2.2.2.1
    [⟨1, 0, "tb", SLATier.bronze, 99⟩, ⟨16, 1, "tg", SLATier.gold, 50⟩,
      ⟨25, 2, "ts", SLATier.silver, 50⟩]
    ⟨1, 0, "tb", SLATier.bronze, 99⟩
    [⟨16, 1, "tg", SLATier.gold, 50⟩, ⟨25, 2, "ts", SLATier.silver, 50⟩]
    (by decide)
  exact h ⟨16, 1, "tg", SLATier.gold, 50⟩ (by decide)

/-! ## Retry wrapper (`_search_with_retry` / `_mutate_with_retry`)

`tenacity.retry(stop=stop_after_attempt(3),
retry=retry_if_exception_type((RateLimitError, ExternalAPIError)),
reraise=True)`: at most 3 attempts, retry decided by the *class* of the
raised exception, the last error re-raised on exhaustion.  The attempt
bound 3 is inlined and the backoff sleep is not modelled. -/

/-- `retry_if_exception_type((RateLimitError, ExternalAPIError))`. -/
def shouldRetryError (e : AdsErr) : Bool :=
  e.cls == .rateLimitError || e.cls == .externalApiError

/-- One attempt of the retry loop: a success returns immediately; a
retryable-class error hands over to the continuation `k` (the remaining
attempts) and counts its invocations; any other error is re-raised.
The pair's second component counts invocations of the underlying call. -/
def attemptOutcome {α : Type} (res : Except AdsErr α)
    (k : Unit → Except AdsErr α × Nat) : Except AdsErr α × Nat :=
  match res with
  | .ok a => (.ok a, 1)
  | .error e =>
    if shouldRetryError e then ((k ()).1, (k ()).2 + 1)
    else (.error e, 1)

/-- The retry wrapper around an underlying call, `max_attempts = 3`
inlined.  `f n` is the outcome of invocation number `n` of the wrapped
call; the last attempt returns its outcome unconditionally (`reraise`). -/
def retryCall {α : Type} (f : Nat → Except AdsErr α) :
    Except AdsErr α × Nat :=
  attemptOutcome (f 0) (fun _ =>
    attemptOutcome (f 1) (fun _ => (f 2, 1)))

theorem attemptOutcome_ok {α : Type} (a : α)
    (k : Unit → Except AdsErr α × Nat) :
    attemptOutcome (.ok a) k = (.ok a, 1) := rfl

theorem attemptOutcome_error {α : Type} (e : AdsErr)
    (k : Unit → Except AdsErr α × Nat) :
    attemptOutcome (.error e) k =
      if shouldRetryError e then ((k ()).1, (k ()).2 + 1)
      else (.error e, 1) := rfl

theorem retryCall_ok {α : Type} (f : Nat → Except AdsErr α) (a : α)
    (h0 : f 0 = .ok a) : retryCall f = (.ok a, 1) := by
  unfold retryCall
  rw [h0, attemptOutcome_ok]

theorem retryCall_stop1 {α : Type} (f : Nat → Except AdsErr α)
    (e0 : AdsErr) (h0 : f 0 = .error e0)
    (hr0 : shouldRetryError e0 = false) :
    retryCall f = (.error e0, 1) := by
  unfold retryCall
  rw [h0, attemptOutcome_error, hr0]
  rfl

theorem retryCall_ok2 {α : Type} (f : Nat → Except AdsErr α)
    (e0 : AdsErr) (a : α) (h0 : f 0 = .error e0)
    (hr0 : shouldRetryError e0 = true) (h1 : f 1 = .ok a) :
    retryCall f = (.ok a, 2) := by
  unfold retryCall
  rw [h0, h1, attemptOutcome_error, hr0, attemptOutcome_ok]
  rfl

theorem retryCall_stop2 {α : Type} (f : Nat → Except AdsErr α)
    (e0 e1 : AdsErr) (h0 : f 0 = .error e0)
    (hr0 : shouldRetryError e0 = true) (h1 : f 1 = .error e1)
    (hr1 : shouldRetryError e1 = false) :
    retryCall f = (.error e1, 2) := by
  unfold retryCall
  rw [h0, h1, attemptOutcome_error, hr0, attemptOutcome_error, hr1]
  rfl

theorem retryCall_three {α : Type} (f : Nat → Except AdsErr α)
    (e0 e1 : AdsErr) (h0 : f 0 = .error e0)
    (hr0 : shouldRetryError e0 = true) (h1 : f 1 = .error e1)
    (hr1 : shouldRetryError e1 = true) :
    retryCall f = (f 2, 3) := by
  unfold retryCall
  rw [h0, h1, attemptOutcome_error, hr0, attemptOutcome_error, hr1]
  rfl

/-- The category an error class's constructor stamps on the error. -/
def clsCategory : ErrCls → ErrorCategory
  | .authenticationError => .authentication
  | .authorizationError => .authorization
  | .quotaExceededError => .quota
  | .rateLimitError => .rateLimit
  | .validationError => .validation
  | .notFoundError => .notFound
  | .conflictError => .conflict
  | .timeoutError => .timeout
  | .circuitBreakerError => .circuitBreaker
  | .externalApiError => .externalApi
  | .internalError => .internal

theorem shouldRetryError_not_quota_timeout {e : AdsErr}
    (h : shouldRetryError e = true)
    (hcat : e.category = clsCategory e.cls) :
    e.category ≠ .quota ∧ e.category ≠ .timeout := by
  unfold shouldRetryError at h
  rcases Bool.or_eq_true_iff.mp h with h' | h' <;> rw [beq_iff_eq] at h' <;>
    rw [hcat, h'] <;> exact ⟨by decide, by decide⟩

/-- COUNTEREXAMPLE to CLAIM C2 as stated: the wrapper dispatches on the
exception class only, so an `ExternalAPIError` with `retryable = false`
(an unmapped upstream code) is retried all the same: here the underlying
call is invoked a second time after such an error. -/
theorem retry_wrapper_retries_nonretryable_error :
    (mapGoogleAdsException "TRANSIENT_BLIP").retryable = false ∧
    (mapGoogleAdsException "TRANSIENT_BLIP").category = .externalApi ∧
    retryCall (fun i =>
      if i = 0 then .error (mapGoogleAdsException "TRANSIENT_BLIP")
      else .ok (7 : Int)) = (.ok 7, 2) :=
  ⟨by decide, by decide, rfl⟩

/-- CLAIM C2 (amended): the retry wrapper invokes the underlying call at
most 3 times (`n ≤ 3` invocations) and returns the outcome of the last
invocation — the first success, or the last error re-raised; every
retried error's class is `RateLimitError` or `ExternalAPIError`
(irrespective of its `retryable` bit), a stop before attempt 3 means the
last error was of neither class, and errors of kind QUOTA or TIMEOUT
(raised as `QuotaExceededError` / `TimeoutError`) are never retried. -/
theorem retry_wrapper_behaviour {α : Type} (f : Nat → Except AdsErr α) :
    ∃ n : Nat, retryCall f = (f (n - 1), n) ∧ 1 ≤ n ∧ n ≤ 3 ∧
      (∀ j, j + 1 < n → ∃ e, f j = .error e ∧ shouldRetryError e = true) ∧
      (n < 3 → ∀ e, f (n - 1) = .error e → shouldRetryError e = false) ∧
      (∀ j e, j + 1 < n → f j = .error e →
        e.category = clsCategory e.cls →
        e.category ≠ .quota ∧ e.category ≠ .timeout) := by
  cases h0 : f 0 with
  | ok a =>
    refine ⟨1, ?_, by omega, by omega, ?_, ?_, ?_⟩
    · rw [retryCall_ok f a h0]
      norm_num
      rw [h0]
    · intro j hj
      omega
    · intro _ e he
      norm_num at he
      rw [h0] at he
      cases he
    · intro j e hj
      omega
  | error e0 =>
    cases hret0 : shouldRetryError e0 with
    | false =>
      refine ⟨1, ?_, by omega, by omega, ?_, ?_, ?_⟩
      · rw [retryCall_stop1 f e0 h0 hret0]
        norm_num
        rw [h0]
      · intro j hj
        omega
      · intro _ e he
        norm_num at he
        rw [h0] at he
        injection he with he
        subst he
        exact hret0
      · intro j e hj
        omega
    | true =>
      cases h1 : f 1 with
      | ok a =>
        refine ⟨2, ?_, by omega, by omega, ?_, ?_, ?_⟩
        · rw [retryCall_ok2 f e0 a h0 hret0 h1]
          norm_num
          rw [h1]
        · intro j hj
          have hz : j = 0 := by omega
          subst hz
          exact ⟨e0, h0, hret0⟩
        · intro _ e he
          norm_num at he
          rw [h1] at he
          cases he
        · intro j e hj he hcat
          have hz : j = 0 := by omega
          subst hz
          rw [h0] at he
          injection he with he
          subst he
          exact shouldRetryError_not_quota_timeout hret0 hcat
      | error e1 =>
        cases hret1 : shouldRetryError e1 with
        | false =>
          refine ⟨2, ?_, by omega, by omega, ?_, ?_, ?_⟩
          · rw [retryCall_stop2 f e0 e1 h0 hret0 h1 hret1]
            norm_num
            rw [h1]
          · intro j hj
            have hz : j = 0 := by omega
            subst hz
            exact ⟨e0, h0, hret0⟩
          · intro _ e he
            norm_num at he
            rw [h1] at he
            injection he with he
            subst he
            exact hret1
          · intro j e hj he hcat
            have hz : j = 0 := by omega
            subst hz
            rw [h0] at he
            injection he with he
            subst he
            exact shouldRetryError_not_quota_timeout hret0 hcat
        | true =>
          refine ⟨3, ?_, by omega, by omega, ?_, ?_, ?_⟩
          · rw [retryCall_three f e0 e1 h0 hret0 h1 hret1]
          · intro j hj
            have hz : j = 0 ∨ j = 1 := by omega
            rcases hz with rfl | rfl
            · exact ⟨e0, h0, hret0⟩
            · exact ⟨e1, h1, hret1⟩
          · intro hlt
            omega
          · intro j e hj he hcat
            have hz : j = 0 ∨ j = 1 := by omega
            rcases hz with rfl | rfl
            · rw [h0] at he
              injection he with he
              subst he
              exact shouldRetryError_not_quota_timeout hret0 hcat
            · rw [h1] at he
              injection he with he
              subst he
              exact shouldRetryError_not_quota_timeout hret1 hcat

/-- Witness for C2 (amended): under a call that always raises the QUOTA
error mapped from `QUOTA_ERROR`, the wrapper makes exactly one invocation
and re-raises that error — derived from the amended theorem by
discharging its retried-error clause at `j = 0`. -/
theorem retry_wrapper_behaviour_witness :
    retryCall (fun _ =>
        (.error (mapGoogleAdsException "QUOTA_ERROR") : Except AdsErr Int))
      = (.error (mapGoogleAdsException "QUOTA_ERROR"), 1) := by
  obtain ⟨n, hn, hge, hle, hretried, _, _⟩ :=
    retry_wrapper_behaviour (fun _ =>
      (.error (mapGoogleAdsException "QUOTA_ERROR") : Except AdsErr Int))
  have hn1 : n = 1 := by
    by_contra hne
    obtain ⟨e, he, hre⟩ := hretried 0 (by omega)
    have he' : (.error (mapGoogleAdsException "QUOTA_ERROR") :
        Except AdsErr Int) = .error e := he
    injection he' with he
    subst he
    exact absurd hre (by decide)
  subst hn1
  exact hn.trans rfl

/-! ## In-process LRU cache (`src/core/cache.py`, class `LRUCache`)

The `OrderedDict` is modelled as an association list with unique keys,
head = least recently used.  `move_to_end` is erase-then-append.  A second,
tick-instrumented model `ILRU` additionally stamps every entry with the
clock value of its last access (a `get` hit or a `set`); erasing the
ticks recovers the plain model, which makes "the evicted entry has the
oldest last access" a provable statement. -/

def odLookup : List (String × PyVal) → String → Option PyVal
  | [], _ => none
  | p :: rest, k => if p.1 = k then some p.2 else odLookup rest k

def odErase (l : List (String × PyVal)) (k : String) :
    List (String × PyVal) :=
  l.filter (fun p => p.1 != k)

/-- `LRUCache` with its `CacheStats` counters inlined. -/
structure LRUCache where
  maxsize : Nat
  cache : List (String × PyVal)
  hits : Nat
  misses : Nat
  sets : Nat
  evictions : Nat
deriving DecidableEq, Repr

/-- `LRUCache.get`: a stored value that `is None` is reported as a miss
and not moved; a present non-`None` value is moved to most-recent. -/
def lruGet (c : LRUCache) (k : String) : PyVal × LRUCache :=
  match odLookup c.cache k with
  | some v =>
    if v = .pynone then (.pynone, { c with misses := c.misses + 1 })
    else (v, { c with
      cache := (odErase c.cache k ++ [(k, v)]),
      hits := c.hits + 1 })
  | none => (.pynone, { c with misses := c.misses + 1 })

/-- `LRUCache.set`: insert-or-update, move to most-recent, then evict the
least-recent entry (`popitem(last=False)`) if the size exceeds `maxsize`.
Also returns the evicted key, if any. -/
def lruSet (c : LRUCache) (k : String) (v : PyVal) :
    Option String × LRUCache :=
  if (odErase c.cache k ++ [(k, v)]).length > c.maxsize then
    match odErase c.cache k ++ [(k, v)] with
    | [] => (none, { c with cache := ([]), sets := c.sets + 1 })
    | e :: rest =>
      (some e.1, { c with
        cache := rest,
        evictions := c.evictions + 1,
        sets := c.sets + 1 })
  else (none, { c with
    cache := (odErase c.cache k ++ [(k, v)]),
    sets := c.sets + 1 })

/-- Tick-instrumented LRU state: each entry carries the clock value of
its last access. -/
structure ILRU where
  maxsize : Nat
  entries : List (String × PyVal × Nat)
  clock : Nat
deriving DecidableEq, Repr

def ientriesErase (l : List (String × PyVal × Nat)) (k : String) :
    List (String × PyVal × Nat) :=
  l.filter (fun p => p.1 != k)

def ilookup : List (String × PyVal × Nat) → String → Option (PyVal × Nat)
  | [], _ => none
  | p :: rest, k => if p.1 = k then some p.2 else ilookup rest k

/-- Instrumented `get`: a hit refreshes the entry's access tick. -/
def ilruGet (s : ILRU) (k : String) : ILRU :=
  match ilookup s.entries k with
  | some vt =>
    if vt.1 = .pynone then { s with clock := s.clock + 1 }
    else { s with
      entries := (ientriesErase s.entries k ++ [(k, vt.1, s.clock)]),
      clock := s.clock + 1 }
  | none => { s with clock := s.clock + 1 }

/-- Instrumented `set`: stamps the written entry with the current clock,
then evicts the head on overflow, returning the evicted key and its
last-access tick. -/
def ilruSet (s : ILRU) (k : String) (v : PyVal) :
    Option (String × Nat) × ILRU :=
  if (ientriesErase s.entries k ++ [(k, v, s.clock)]).length > s.maxsize
  then
    match ientriesErase s.entries k ++ [(k, v, s.clock)] with
    | [] => (none, { s with entries := ([]), clock := s.clock + 1 })
    | e :: rest =>
      (some (e.1, e.2.2), { s with
        entries := rest,
        clock := s.clock + 1 })
  else (none, { s with
    entries := (ientriesErase s.entries k ++ [(k, v, s.clock)]),
    clock := s.clock + 1 })

/-! Equation lemmas for the four cache operations. -/

theorem lruGet_none (c : LRUCache) (k : String)
    (h : odLookup c.cache k = none) :
    lruGet c k = (.pynone, { c with misses := c.misses + 1 }) := by
  unfold lruGet
  rw [h]

theorem lruGet_some_none (c : LRUCache) (k : String)
    (h : odLookup c.cache k = some .pynone) :
    lruGet c k = (.pynone, { c with misses := c.misses + 1 }) := by
  unfold lruGet
  rw [h]
  rfl

theorem lruGet_some (c : LRUCache) (k : String) (v : PyVal)
    (h : odLookup c.cache k = some v) (hv : v ≠ .pynone) :
    lruGet c k = (v, { c with
      cache := (odErase c.cache k ++ [(k, v)]),
      hits := c.hits + 1 }) := by
  unfold lruGet
  rw [h]
  exact if_neg hv

theorem lruSet_evict (c : LRUCache) (k : String) (v : PyVal)
    (e : String × PyVal) (rest : List (String × PyVal))
    (hl : odErase c.cache k ++ [(k, v)] = e :: rest)
    (hlen : (e :: rest).length > c.maxsize) :
    lruSet c k v = (some e.1, { c with
      cache := rest,
      evictions := c.evictions + 1,
      sets := c.sets + 1 }) := by
  unfold lruSet
  rw [hl, if_pos hlen]

theorem lruSet_fit (c : LRUCache) (k : String) (v : PyVal)
    (hlen : ¬(odErase c.cache k ++ [(k, v)]).length > c.maxsize) :
    lruSet c k v = (none, { c with
      cache := (odErase c.cache k ++ [(k, v)]),
      sets := c.sets + 1 }) := by
  unfold lruSet
  rw [if_neg hlen]

theorem ilruGet_none (s : ILRU) (k : String)
    (h : ilookup s.entries k = none) :
    ilruGet s k = { s with clock := s.clock + 1 } := by
  unfold ilruGet
  rw [h]

theorem ilruGet_some_none (s : ILRU) (k : String) (t : Nat)
    (h : ilookup s.entries k = some (.pynone, t)) :
    ilruGet s k = { s with clock := s.clock + 1 } := by
  unfold ilruGet
  rw [h]
  rfl

theorem ilruGet_some (s : ILRU) (k : String) (v : PyVal) (t : Nat)
    (h : ilookup s.entries k = some (v, t)) (hv : v ≠ .pynone) :
    ilruGet s k = { s with
      entries := (ientriesErase s.entries k ++ [(k, v, s.clock)]),
      clock := s.clock + 1 } := by
  unfold ilruGet
  rw [h]
  exact if_neg hv

theorem ilruSet_evict (s : ILRU) (k : String) (v : PyVal)
    (e : String × PyVal × Nat) (rest : List (String × PyVal × Nat))
    (hl : ientriesErase s.entries k ++ [(k, v, s.clock)] = e :: rest)
    (hlen : (e :: rest).length > s.maxsize) :
    ilruSet s k v = (some (e.1, e.2.2), { s with
      entries := rest,
      clock := s.clock + 1 }) := by
  unfold ilruSet
  rw [hl, if_pos hlen]

theorem ilruSet_fit (s : ILRU) (k : String) (v : PyVal)
    (hlen : ¬(ientriesErase s.entries k ++ [(k, v, s.clock)]).length >
      s.maxsize) :
    ilruSet s k v = (none, { s with
      entries := (ientriesErase s.entries k ++ [(k, v, s.clock)]),
      clock := s.clock + 1 }) := by
  unfold ilruSet
  rw [if_neg hlen]

/-- One cache operation of a `set`/`get` trace. -/
inductive COp where
  | cset (k : String) (v : PyVal)
  | cget (k : String)
deriving DecidableEq, Repr

def plainStep (c : LRUCache) : COp → LRUCache
  | .cset k v => (lruSet c k v).2
  | .cget k => (lruGet c k).2

def instrStep (s : ILRU) : COp → ILRU
  | .cset k v => (ilruSet s k v).2
  | .cget k => ilruGet s k

/-- Run a trace on an empty cache of size `n`. -/
def runPlain (n : Nat) (ops : List COp) : LRUCache :=
  ops.foldl plainStep ⟨n, [], 0, 0, 0, 0⟩

def runInstr (n : Nat) (ops : List COp) : ILRU :=
  ops.foldl instrStep ⟨n, [], 0⟩

/-- Forget the access ticks. -/
def stripTicks (l : List (String × PyVal × Nat)) : List (String × PyVal) :=
  l.map (fun e => (e.1, e.2.1))

def entryTicks (l : List (String × PyVal × Nat)) : List Nat :=
  l.map (fun e => e.2.2)

theorem strip_erase (l : List (String × PyVal × Nat)) (k : String) :
    stripTicks (ientriesErase l k) = odErase (stripTicks l) k := by
  induction l with
  | nil => rfl
  | cons e rest ih =>
    by_cases h : e.1 = k
    · simp only [ientriesErase, odErase, stripTicks, List.filter_cons,
        List.map_cons] at ih ⊢
      simp [h, ih]
    · simp only [ientriesErase, odErase, stripTicks, List.filter_cons,
        List.map_cons] at ih ⊢
      simp [h, ih]

theorem strip_lookup (l : List (String × PyVal × Nat)) (k : String) :
    odLookup (stripTicks l) k = (ilookup l k).map Prod.fst := by
  induction l with
  | nil => rfl
  | cons e rest ih =>
    by_cases h : e.1 = k
    · simp [odLookup, ilookup, stripTicks, h]
    · simp only [odLookup, ilookup, stripTicks, List.map_cons]
      rw [if_neg h, if_neg h]
      exact ih

theorem strip_length (l : List (String × PyVal × Nat)) :
    (stripTicks l).length = l.length := List.length_map l _

theorem stripTicks_append (l1 l2 : List (String × PyVal × Nat)) :
    stripTicks (l1 ++ l2) = stripTicks l1 ++ stripTicks l2 :=
  List.map_append _ l1 l2

theorem entryTicks_append (l1 l2 : List (String × PyVal × Nat)) :
    entryTicks (l1 ++ l2) = entryTicks l1 ++ entryTicks l2 :=
  List.map_append _ l1 l2

theorem entryTicks_erase_sublist (l : List (String × PyVal × Nat))
    (k : String) :
    (entryTicks (ientriesErase l k)).Sublist (entryTicks l) :=
  (List.filter_sublist l).map _

/-- Correspondence between a plain cache state and an instrumented one. -/
def Corr (c : LRUCache) (s : ILRU) : Prop :=
  c.maxsize = s.maxsize ∧ c.cache = stripTicks s.entries

theorem corr_get {c : LRUCache} {s : ILRU} (h : Corr c s) (k : String) :
    Corr (lruGet c k).2 (ilruGet s k) := by
  obtain ⟨hm, hc⟩ := h
  cases hl : ilookup s.entries k with
  | none =>
    have hpl : odLookup c.cache k = none := by
      rw [hc, strip_lookup, hl]
      rfl
    rw [lruGet_none c k hpl, ilruGet_none s k hl]
    exact ⟨hm, hc⟩
  | some vt =>
    obtain ⟨v, t⟩ := vt
    have hpl : odLookup c.cache k = some v := by
      rw [hc, strip_lookup, hl]
      rfl
    by_cases hv : v = .pynone
    · subst hv
      rw [lruGet_some_none c k hpl, ilruGet_some_none s k t hl]
      exact ⟨hm, hc⟩
    · rw [lruGet_some c k v hpl hv, ilruGet_some s k v t hl hv]
      refine ⟨hm, ?_⟩
      show odErase c.cache k ++ [(k, v)] =
        stripTicks (ientriesErase s.entries k ++ [(k, v, s.clock)])
      rw [stripTicks_append, strip_erase, hc]
      rfl

theorem corr_set {c : LRUCache} {s : ILRU} (h : Corr c s) (k : String)
    (v : PyVal) :
    (lruSet c k v).1 = ((ilruSet s k v).1).map Prod.fst ∧
    Corr (lruSet c k v).2 (ilruSet s k v).2 := by
  obtain ⟨hm, hc⟩ := h
  have hstrip : odErase c.cache k ++ [(k, v)] =
      stripTicks (ientriesErase s.entries k ++ [(k, v, s.clock)]) := by
    rw [stripTicks_append, strip_erase, hc]
    rfl
  cases hl : ientriesErase s.entries k ++ [(k, v, s.clock)] with
  | nil => simp at hl
  | cons e rest =>
    rw [hl] at hstrip
    by_cases hover : (e :: rest).length > s.maxsize
    · have hoverP : (( (e.1, e.2.1) :: stripTicks rest)).length >
          c.maxsize := by
        have : ((e.1, e.2.1) :: stripTicks rest).length =
            (e :: rest).length := by
          simp [stripTicks]
        rw [this, hm]
        exact hover
      rw [lruSet_evict c k v (e.1, e.2.1) (stripTicks rest)
          (by rw [hstrip]; rfl) hoverP,
        ilruSet_evict s k v e rest hl hover]
      exact ⟨rfl, hm, rfl⟩
    · have hoverP : ¬(odErase c.cache k ++ [(k, v)]).length > c.maxsize :=
        by
        rw [hstrip, hm]
        simpa [stripTicks] using hover
      rw [lruSet_fit c k v hoverP, ilruSet_fit s k v (by rw [hl]; exact hover)]
      refine ⟨rfl, hm, ?_⟩
      show odErase c.cache k ++ [(k, v)] =
        stripTicks (ientriesErase s.entries k ++ [(k, v, s.clock)])
      rw [hl]
      exact hstrip

theorem corr_run (n : Nat) (ops : List COp) :
    Corr (runPlain n ops) (runInstr n ops) := by
  unfold runPlain runInstr
  have hinit : Corr ⟨n, [], 0, 0, 0, 0⟩ (⟨n, [], 0⟩ : ILRU) := ⟨rfl, rfl⟩
  generalize hc : (⟨n, [], 0, 0, 0, 0⟩ : LRUCache) = c at hinit ⊢
  generalize hs : (⟨n, [], 0⟩ : ILRU) = s at hinit ⊢
  clear hc hs
  induction ops generalizing c s with
  | nil => exact hinit
  | cons op rest ih =>
    cases op with
    | cset k v => exact ih _ _ (corr_set hinit k v).2
    | cget k => exact ih _ _ (corr_get hinit k)

/-- Invariant: access ticks strictly increase along the recency list and
stay below the clock. -/
def ILRUInv (s : ILRU) : Prop :=
  List.Pairwise (· < ·) (entryTicks s.entries) ∧
  ∀ t ∈ entryTicks s.entries, t < s.clock

theorem ticks_after_touch {s : ILRU} (h : ILRUInv s) (k : String)
    (v : PyVal) :
    List.Pairwise (· < ·)
      (entryTicks (ientriesErase s.entries k ++ [(k, v, s.clock)])) ∧
    ∀ t ∈ entryTicks (ientriesErase s.entries k ++ [(k, v, s.clock)]),
      t < s.clock + 1 := by
  obtain ⟨hpw, hbound⟩ := h
  have hsub := entryTicks_erase_sublist s.entries k
  constructor
  · rw [entryTicks_append, List.pairwise_append]
    refine ⟨hpw.sublist hsub, List.pairwise_singleton _ _, ?_⟩
    intro a ha b hb
    have hb' : b = s.clock := by
      simpa [entryTicks] using hb
    subst hb'
    exact hbound a (hsub.mem ha)
  · intro t ht
    rw [entryTicks_append, List.mem_append] at ht
    rcases ht with ht | ht
    · exact Nat.lt_succ_of_lt (hbound t (hsub.mem ht))
    · have ht' : t = s.clock := by
        simpa [entryTicks] using ht
      subst ht'
      exact Nat.lt_succ_self _

theorem inv_get {s : ILRU} (h : ILRUInv s) (k : String) :
    ILRUInv (ilruGet s k) := by
  cases hl : ilookup s.entries k with
  | none =>
    rw [ilruGet_none s k hl]
    exact ⟨h.1, fun t ht => Nat.lt_succ_of_lt (h.2 t ht)⟩
  | some vt =>
    obtain ⟨v, t⟩ := vt
    by_cases hv : v = .pynone
    · subst hv
      rw [ilruGet_some_none s k t hl]
      exact ⟨h.1, fun t' ht' => Nat.lt_succ_of_lt (h.2 t' ht')⟩
    · rw [ilruGet_some s k v t hl hv]
      exact ticks_after_touch h k v

theorem inv_set {s : ILRU} (h : ILRUInv s) (k : String) (v : PyVal) :
    ILRUInv (ilruSet s k v).2 := by
  have htouch := ticks_after_touch h k v
  cases hl : ientriesErase s.entries k ++ [(k, v, s.clock)] with
  | nil => simp at hl
  | cons e rest =>
    rw [hl] at htouch
    by_cases hover : (e :: rest).length > s.maxsize
    · rw [ilruSet_evict s k v e rest hl hover]
      have hp : List.Pairwise (· < ·) (e.2.2 :: entryTicks rest) :=
        htouch.1
      refine ⟨(List.pairwise_cons.mp hp).2, ?_⟩
      intro t ht
      refine htouch.2 t ?_
      show t ∈ e.2.2 :: entryTicks rest
      exact List.mem_cons_of_mem _ ht
    · rw [ilruSet_fit s k v (by rw [hl]; exact hover)]
      rw [hl]
      exact htouch

theorem inv_run (n : Nat) (ops : List COp) : ILRUInv (runInstr n ops) := by
  unfold runInstr
  have hinit : ILRUInv (⟨n, [], 0⟩ : ILRU) :=
    ⟨List.Pairwise.nil, by simp [entryTicks]⟩
  generalize hs : (⟨n, [], 0⟩ : ILRU) = s at hinit ⊢
  clear hs
  induction ops generalizing s with
  | nil => exact hinit
  | cons op rest ih =>
    cases op with
    | cset k v => exact ih _ (inv_set hinit k v)
    | cget k => exact ih _ (inv_get hinit k)

/-- Under the invariant, an eviction removes the entry with the minimal
(oldest) last-access tick: its tick bounds every surviving entry's. -/
theorem ilruSet_evict_min {s : ILRU} (h : ILRUInv s) (k : String)
    (v : PyVal) (ek : String) (et : Nat)
    (hev : (ilruSet s k v).1 = some (ek, et)) :
    ∀ p ∈ ((ilruSet s k v).2).entries, et ≤ p.2.2 := by
  have htouch := ticks_after_touch h k v
  cases hl : ientriesErase s.entries k ++ [(k, v, s.clock)] with
  | nil => simp at hl
  | cons e rest =>
    rw [hl] at htouch
    by_cases hover : (e :: rest).length > s.maxsize
    · rw [ilruSet_evict s k v e rest hl hover] at hev ⊢
      have het : e.2.2 = et :=
        congrArg Prod.snd (Option.some.inj hev)
      intro p hp
      have hpc : List.Pairwise (· < ·) (e.2.2 :: entryTicks rest) :=
        htouch.1
      have hlt := (List.pairwise_cons.mp hpc).1 p.2.2
        (List.mem_map_of_mem _ hp)
      rw [het] at hlt
      exact Nat.le_of_lt hlt
    · rw [ilruSet_fit s k v (by rw [hl]; exact hover)] at hev
      cases hev

/-- Scenario S2 trace: `set(A,1); set(B,2); set(C,3); get(A)` on N = 3. -/
def s2Prefix : List COp :=
  [.cset "A" (.pyint 1), .cset "B" (.pyint 2), .cset "C" (.pyint 3),
   .cget "A"]

/-- CLAIM C6: for every `set`/`get` trace, the plain LRU cache is the
tick-erasure of the instrumented run, whose evictions always remove the
entry with the oldest last-access tick; concretely, on N = 3 the trace
`set(A,1); set(B,2); set(C,3); get(A); set(D,4)` evicts B and then reads
`A = 1`, `B = None`, `C = 3`, `D = 4`. -/
theorem lru_eviction_oldest_access :
    (∀ (n : Nat) (ops : List COp),
      (runPlain n ops).maxsize = (runInstr n ops).maxsize ∧
      (runPlain n ops).cache = stripTicks (runInstr n ops).entries) ∧
    (∀ (n : Nat) (ops : List COp) (k : String) (v : PyVal),
      (lruSet (runPlain n ops) k v).1 =
        ((ilruSet (runInstr n ops) k v).1).map Prod.fst) ∧
    (∀ (n : Nat) (ops : List COp) (k : String) (v : PyVal) (ek : String)
      (et : Nat),
      (ilruSet (runInstr n ops) k v).1 = some (ek, et) →
      ∀ p ∈ ((ilruSet (runInstr n ops) k v).2).entries, et ≤ p.2.2) ∧
    (lruSet (runPlain 3 s2Prefix) "D" (.pyint 4)).1 = some "B" ∧
    ((lruGet (runPlain 3 (s2Prefix ++ [.cset "D" (.pyint 4)])) "A").1 =
        .pyint 1 ∧
      (lruGet (lruGet (runPlain 3 (s2Prefix ++ [.cset "D" (.pyint 4)]))
          "A").2 "B").1 = .pynone ∧
      (lruGet (lruGet (lruGet (runPlain 3
          (s2Prefix ++ [.cset "D" (.pyint 4)])) "A").2 "B").2 "C").1 =
        .pyint 3 ∧
      (lruGet (lruGet (lruGet (lruGet (runPlain 3
          (s2Prefix ++ [.cset "D" (.pyint 4)])) "A").2 "B").2 "C").2
          "D").1 = .pyint 4) := by
  refine ⟨fun n ops => corr_run n ops, fun n ops k v =>
    (corr_set (corr_run n ops) k v).1, fun n ops k v ek et hev =>
    ilruSet_evict_min (inv_run n ops) k v ek et hev, by decide, by decide,
    by decide, by decide, by decide⟩

/-- Witness for C6: in the S2 trace the eviction triggered by `set(D,4)`
removes B with last-access tick 1, which bounds the tick of the surviving
entry C (last accessed at tick 2). -/
theorem lru_eviction_oldest_access_witness :
    (1 : Nat) ≤ (("C", PyVal.pyint 3, 2) : String × PyVal × Nat).2.2 :=
  lru_eviction_oldest_access.2.2.1 3 s2Prefix "D" (.pyint 4) "B" 1
    (by decide) ("C", PyVal.pyint 3, 2) (by decide)

/-! ## Operation pipeline
(`CacheManager` in `src/core/cache.py`, `GoogleAdsManager` in
`src/core/google_ads_manager.py`)

`World` bundles the state the pipeline touches: the in-process LRU, the
Redis cache keyspace (full key → decoded JSON value), the Redis quota
keyspace, and the tier / pause maps (disjoint Redis keyspaces modelled as
functions).  The pipeline submits one operation and awaits the queue
drain, so the submitted closure is run synchronously; the retry-wrapped
upstream call is abstracted as its overall outcome `upstream`. -/

structure World where
  lru : LRUCache
  redisCache : List (String × PyVal)
  quota : RStore
  tier : String → SLATier
  paused : String → Bool

/-- Redis `SETEX` on the cache keyspace (TTL not modelled). -/
def redisSet (l : List (String × PyVal)) (k : String) (v : PyVal) :
    List (String × PyVal) :=
  l.filter (fun p => p.1 != k) ++ [(k, v)]

/-- `QuotaGovernor.pause_client`: set `client:{id}:paused` to `"1"`. -/
def pauseClient (w : World) (clientId : String) : World :=
  { w with paused := fun c => if c = clientId then true else w.paused c }

/-- `QuotaGovernor.resume_client`: delete the pause key. -/
def resumeClient (w : World) (clientId : String) : World :=
  { w with paused := fun c => if c = clientId then false else w.paused c }

/-- `CacheManager.get`: LRU first (hit returns immediately), then Redis;
a Redis hit is promoted into the LRU and returned — even when the decoded
value is the JSON `null` (Python `None`). -/
def cmGet (w : World) (key : String) : PyVal × World :=
  if (lruGet w.lru key).1 ≠ .pynone then
    ((lruGet w.lru key).1, { w with lru := (lruGet w.lru key).2 })
  else
    match odLookup w.redisCache ("cache:" ++ key) with
    | some data =>
      (data, { w with lru := (lruSet (lruGet w.lru key).2 key data).2 })
    | none => (.pynone, { w with lru := (lruGet w.lru key).2 })

/-- `CacheManager.set`: write the LRU, then Redis under `cache:{key}`. -/
def cmSet (w : World) (key : String) (v : PyVal) : World :=
  { w with
    lru := (lruSet w.lru key v).2,
    redisCache := redisSet w.redisCache ("cache:" ++ key) v }

/-- `GAQLRequest`. -/
structure GAQLRequest where
  query : String
  client_id : String
  page_size : Nat
  cache_enabled : Bool
  service_type : String

/-- `MutateRequest` (operation payloads only matter by count). -/
structure MutateRequest where
  operations : List PyVal
  client_id : String
  operation_type : String
  validate_only : Bool

/-- The cache key `execute_gaql` builds:
`build_cache_key(client_id=..., operation="gaql", query=..., page_size=...)`. -/
def gaqlCacheKey (req : GAQLRequest) : String :=
  buildCacheKey req.client_id "gaql"
    [("query", req.query), ("page_size", toString req.page_size)]

/-- Continuation of `execute_gaql` after a successful upstream call:
charge 10 units, then write the cache only when `cache_enabled and
result` (truthy). -/
def gaqlSuccess (w : World) (req : GAQLRequest) (result : PyVal) :
    Except AdsErr PyVal × World :=
  if req.cache_enabled && result.truthy then
    (.ok result,
      cmSet { w with quota := quotaCharge w.quota req.client_id 10 }
        (gaqlCacheKey req) result)
  else
    (.ok result, { w with quota := quotaCharge w.quota req.client_id 10 })

/-- `execute_gaql` from the tier fetch onward: pause check, admission
(10 units), scheduler-executed upstream call, charge on success, cache
write per `gaqlSuccess`. -/
def gaqlAfterCache (w : World) (req : GAQLRequest)
    (upstream : Except AdsErr PyVal) : Except AdsErr PyVal × World :=
  if w.paused req.client_id then (.error mkQuotaExceededError, w)
  else if canRun w.quota req.client_id 10 (w.tier req.client_id) then
    match upstream with
    | .ok result => gaqlSuccess w req result
    | .error e => (.error e, w)
  else (.error mkQuotaExceededError, w)

/-- `GoogleAdsManager.execute_gaql`: the cache is consulted first and a
hit returns immediately, before the pause check. -/
def executeGaql (w : World) (req : GAQLRequest)
    (upstream : Except AdsErr PyVal) : Except AdsErr PyVal × World :=
  if req.cache_enabled then
    if (cmGet w (gaqlCacheKey req)).1 ≠ .pynone then
      (.ok (cmGet w (gaqlCacheKey req)).1, (cmGet w (gaqlCacheKey req)).2)
    else gaqlAfterCache (cmGet w (gaqlCacheKey req)).2 req upstream
  else gaqlAfterCache w req upstream

/-- `GoogleAdsManager.execute_mutate`: no cache interaction; cost
`50 * len(operations)`. -/
def executeMutate (w : World) (req : MutateRequest)
    (upstream : Except AdsErr PyVal) : Except AdsErr PyVal × World :=
  if w.paused req.client_id then (.error mkQuotaExceededError, w)
  else if canRun w.quota req.client_id (50 * req.operations.length)
      (w.tier req.client_id) then
    match upstream with
    | .ok result =>
      (.ok result, { w with
        quota := quotaCharge w.quota req.client_id
          (50 * req.operations.length) })
    | .error e => (.error e, w)
  else (.error mkQuotaExceededError, w)

/-! Equation lemmas for the pipeline. -/

theorem executeMutate_paused (w : World) (req : MutateRequest)
    (up : Except AdsErr PyVal) (hp : w.paused req.client_id = true) :
    executeMutate w req up = (.error mkQuotaExceededError, w) := by
  unfold executeMutate
  rw [hp]
  rfl

theorem gaqlAfterCache_paused (w : World) (req : GAQLRequest)
    (up : Except AdsErr PyVal) (hp : w.paused req.client_id = true) :
    gaqlAfterCache w req up = (.error mkQuotaExceededError, w) := by
  unfold gaqlAfterCache
  rw [hp]
  rfl

theorem gaqlAfterCache_ok (w : World) (req : GAQLRequest)
    (result : PyVal) (hp : w.paused req.client_id = false)
    (hcr : canRun w.quota req.client_id 10 (w.tier req.client_id) = true) :
    gaqlAfterCache w req (.ok result) = gaqlSuccess w req result := by
  unfold gaqlAfterCache
  rw [hp, hcr]
  rfl

theorem gaqlSuccess_nocache (w : World) (req : GAQLRequest)
    (result : PyVal) (hnc : (req.cache_enabled && result.truthy) = false) :
    gaqlSuccess w req result =
      (.ok result,
        { w with quota := quotaCharge w.quota req.client_id 10 }) := by
  unfold gaqlSuccess
  rw [hnc]
  rfl

theorem executeGaql_nocache (w : World) (req : GAQLRequest)
    (up : Except AdsErr PyVal) (hc : req.cache_enabled = false) :
    executeGaql w req up = gaqlAfterCache w req up := by
  unfold executeGaql
  rw [hc]
  rfl

theorem executeGaql_hit (w : World) (req : GAQLRequest)
    (up : Except AdsErr PyVal) (v : PyVal) (hc : req.cache_enabled = true)
    (hv : v ≠ .pynone) (hhit : (cmGet w (gaqlCacheKey req)).1 = v) :
    executeGaql w req up = (.ok v, (cmGet w (gaqlCacheKey req)).2) := by
  unfold executeGaql
  rw [hc, hhit, if_pos rfl, if_pos hv]

theorem executeGaql_miss (w : World) (req : GAQLRequest)
    (up : Except AdsErr PyVal) (hc : req.cache_enabled = true)
    (hmiss : (cmGet w (gaqlCacheKey req)).1 = .pynone) :
    executeGaql w req up =
      gaqlAfterCache (cmGet w (gaqlCacheKey req)).2 req up := by
  unfold executeGaql
  rw [hc, if_pos rfl, hmiss, if_neg (by simp)]

/-- `cmGet` only mutates the LRU component of the world. -/
theorem cmGet_fields (w : World) (key : String) :
    (cmGet w key).2.paused = w.paused ∧ (cmGet w key).2.tier = w.tier ∧
    (cmGet w key).2.quota = w.quota ∧
    (cmGet w key).2.redisCache = w.redisCache := by
  unfold cmGet
  split
  · exact ⟨rfl, rfl, rfl, rfl⟩
  · split
    · exact ⟨rfl, rfl, rfl, rfl⟩
    · exact ⟨rfl, rfl, rfl, rfl⟩

theorem lruGet_miss_cache (c : LRUCache) (k : String)
    (h : (lruGet c k).1 = .pynone) : (lruGet c k).2.cache = c.cache := by
  cases hodl : odLookup c.cache k with
  | none => rw [lruGet_none c k hodl]
  | some v =>
    by_cases hv : v = .pynone
    · subst hv
      rw [lruGet_some_none c k hodl]
    · rw [lruGet_some c k v hodl hv] at h
      exact absurd h hv

theorem lruGet_fst_eq_of_cache_eq (c c' : LRUCache) (k : String)
    (h : c.cache = c'.cache) : (lruGet c k).1 = (lruGet c' k).1 := by
  cases hodl : odLookup c'.cache k with
  | none =>
    have h1 : odLookup c.cache k = none := by rw [h]; exact hodl
    rw [lruGet_none c k h1, lruGet_none c' k hodl]
  | some v =>
    have h1 : odLookup c.cache k = some v := by rw [h]; exact hodl
    by_cases hv : v = .pynone
    · subst hv
      rw [lruGet_some_none c k h1, lruGet_some_none c' k hodl]
    · rw [lruGet_some c k v h1 hv, lruGet_some c' k v hodl hv]

/-- A full two-tier miss: `CacheManager.get` returns `None` and only the
LRU miss counter changes. -/
theorem cmGet_true_miss (w : World) (k : String)
    (h1 : (lruGet w.lru k).1 = .pynone)
    (h2 : odLookup w.redisCache ("cache:" ++ k) = none) :
    cmGet w k = (.pynone, { w with lru := (lruGet w.lru k).2 }) := by
  unfold cmGet
  rw [h1, if_neg (by simp), h2]

theorem odLookup_all_pynone {l : List (String × PyVal)} {k : String}
    (h : ∀ p ∈ l, p.1 = k → p.2 = .pynone) :
    odLookup l k = none ∨ odLookup l k = some .pynone := by
  induction l with
  | nil => exact Or.inl rfl
  | cons e rest ih =>
    by_cases he : e.1 = k
    · right
      have hv := h e (List.mem_cons_self e rest) he
      unfold odLookup
      rw [if_pos he, hv]
    · unfold odLookup
      rw [if_neg he]
      exact ih fun p hp hk => h p (List.mem_cons_of_mem e hp) hk

/-- Storing Python `None` in the LRU makes the subsequent `get` a miss. -/
theorem lruSet_pynone_get_miss (c : LRUCache) (k : String) :
    (lruGet (lruSet c k .pynone).2 k).1 = .pynone := by
  have hall : ∀ p ∈ odErase c.cache k ++ [(k, PyVal.pynone)],
      p.1 = k → p.2 = .pynone := by
    intro p hp hk
    rcases List.mem_append.mp hp with hp | hp
    · exact absurd hk (by simpa using List.of_mem_filter hp)
    · have hpk : p = (k, PyVal.pynone) := by simpa using hp
      rw [hpk]
  by_cases hover :
      (odErase c.cache k ++ [(k, PyVal.pynone)]).length > c.maxsize
  · cases hl : odErase c.cache k ++ [(k, PyVal.pynone)] with
    | nil => simp at hl
    | cons e rest =>
      rw [hl] at hover hall
      rw [lruSet_evict c k .pynone e rest hl hover]
      have hrest : ∀ p ∈ rest, p.1 = k → p.2 = .pynone :=
        fun p hp hk => hall p (List.mem_cons_of_mem e hp) hk
      rcases odLookup_all_pynone hrest with hn | hs
      · rw [lruGet_none _ k hn]
      · rw [lruGet_some_none _ k hs]
  · rw [lruSet_fit c k .pynone hover]
    rcases odLookup_all_pynone hall with hn | hs
    · rw [lruGet_none _ k hn]
    · rw [lruGet_some_none _ k hs]

/-- Concrete request used in the C1 counterexample. -/
def c1Req : GAQLRequest :=
  ⟨"SELECT campaign.id FROM campaign", "t1", 1000, true, "reporting"⟩

/-- World whose LRU already holds the fingerprint of `c1Req`. -/
def c1Base : World :=
  { lru := ⟨10000, [(gaqlCacheKey c1Req,
      .pyListCons (.pyint 7) .pyListNil)], 0, 0, 0, 0⟩,
    redisCache := [],
    quota := fun _ => .ok none,
    tier := fun _ => .bronze,
    paused := fun _ => false }

/-- COUNTEREXAMPLE to CLAIM C1 as stated: after `pause_client("t1")`, an
`execute_gaql` whose request is cache-enabled and whose fingerprint sits
in the LRU returns the cached result instead of failing with QUOTA — the
cache is consulted and the hit returned before the pause check runs
(the upstream outcome is irrelevant, here an error). -/
theorem pause_isolation_counterexample :
    (pauseClient c1Base "t1").paused "t1" = true ∧
    (executeGaql (pauseClient c1Base "t1") c1Req
        (.error mkInternalError)).1 =
      .ok (.pyListCons (.pyint 7) .pyListNil) := by
  constructor
  · rfl
  · rfl

/-- CLAIM C1 (amended): `pause_client(t)` sets the pause flag and
`resume_client(t)` clears it; while the flag is set, every
`execute_mutate` for `t` and every `execute_gaql` for `t` that does not
hit the cache (cache disabled, or two-tier lookup miss) fails with the
QUOTA error, regardless of balance; but an `execute_gaql` whose
fingerprint hits a cache tier returns the cached value without any pause
check. -/
theorem pause_isolation_amended (w : World) (t : String)
    (mreq : MutateRequest) (req : GAQLRequest) (up : Except AdsErr PyVal)
    (hm : mreq.client_id = t) (hr : req.client_id = t) :
    (pauseClient w t).paused t = true ∧
    (resumeClient (pauseClient w t) t).paused t = false ∧
    (∀ w' : World, w'.paused t = true →
      (executeMutate w' mreq up).1 = .error mkQuotaExceededError) ∧
    (∀ w' : World, w'.paused t = true → req.cache_enabled = false →
      (executeGaql w' req up).1 = .error mkQuotaExceededError) ∧
    (∀ w' : World, w'.paused t = true →
      (cmGet w' (gaqlCacheKey req)).1 = .pynone →
      (executeGaql w' req up).1 = .error mkQuotaExceededError) ∧
    (∀ (w' : World) (v : PyVal), v ≠ .pynone → req.cache_enabled = true →
      (cmGet w' (gaqlCacheKey req)).1 = v →
      (executeGaql w' req up).1 = .ok v) := by
  refine ⟨?_, ?_, ?_, ?_, ?_, ?_⟩
  · simp [pauseClient]
  · simp [pauseClient, resumeClient]
  · intro w' hp
    rw [executeMutate_paused w' mreq up (by rw [hm]; exact hp)]
  · intro w' hp hc
    rw [executeGaql_nocache w' req up hc,
      gaqlAfterCache_paused w' req up (by rw [hr]; exact hp)]
  · intro w' hp hmiss
    cases hc : req.cache_enabled with
    | false =>
      rw [executeGaql_nocache w' req up hc,
        gaqlAfterCache_paused w' req up (by rw [hr]; exact hp)]
    | true =>
      rw [executeGaql_miss w' req up hc hmiss,
        gaqlAfterCache_paused _ req up
          (by rw [(cmGet_fields w' (gaqlCacheKey req)).1, hr]; exact hp)]
  · intro w' v hv hc hhit
    rw [executeGaql_hit w' req up v hc hv hhit]

/-- Witness for C1 (amended): a mutate for the freshly paused tenant
fails with the QUOTA error. -/
theorem pause_isolation_amended_witness :
    (executeMutate (pauseClient c1Base "t1")
        ⟨[.pyListNil], "t1", "campaign", false⟩ (.ok .pyListNil)).1 =
      .error mkQuotaExceededError := by
  have h := pause_isolation_amended c1Base "t1"
    ⟨[.pyListNil], "t1", "campaign", false⟩ c1Req (.ok .pyListNil) rfl rfl
  exact h.2.2.1 (pauseClient c1Base "t1") h.1

/-- CLAIM C10: a cache-enabled GAQL read whose upstream result is the
empty list stores nothing in either cache tier (the write is guarded by
truthiness), so an identical subsequent read misses again, goes through
admission and the upstream call, and is charged a second time; and a
value stored as `None` in the LRU is read back as a miss. -/
theorem empty_result_not_cached (w : World) (req : GAQLRequest)
    (hc : req.cache_enabled = true)
    (h1 : (lruGet w.lru (gaqlCacheKey req)).1 = .pynone)
    (h2 : odLookup w.redisCache ("cache:" ++ gaqlCacheKey req) = none)
    (hp : w.paused req.client_id = false)
    (hcr : canRun w.quota req.client_id 10 (w.tier req.client_id) = true)
    (hcr2 : canRun (quotaCharge w.quota req.client_id 10) req.client_id 10
      (w.tier req.client_id) = true) :
    (executeGaql w req (.ok .pyListNil)).1 = .ok .pyListNil ∧
    (executeGaql w req (.ok .pyListNil)).2.lru.cache = w.lru.cache ∧
    (executeGaql w req (.ok .pyListNil)).2.redisCache = w.redisCache ∧
    (executeGaql w req (.ok .pyListNil)).2.quota =
      quotaCharge w.quota req.client_id 10 ∧
    (executeGaql (executeGaql w req (.ok .pyListNil)).2 req
        (.ok .pyListNil)).1 = .ok .pyListNil ∧
    (executeGaql (executeGaql w req (.ok .pyListNil)).2 req
        (.ok .pyListNil)).2.quota =
      quotaCharge (quotaCharge w.quota req.client_id 10) req.client_id
        10 ∧
    (∀ (c : LRUCache) (k : String),
      (lruGet (lruSet c k .pynone).2 k).1 = .pynone) := by
  have hmiss : (cmGet w (gaqlCacheKey req)).1 = .pynone := by
    rw [cmGet_true_miss w _ h1 h2]
  have hnc : (req.cache_enabled && PyVal.truthy .pyListNil) = false := by
    rw [hc]
    rfl
  have hcm1 : (cmGet w (gaqlCacheKey req)).2 =
      { w with lru := (lruGet w.lru (gaqlCacheKey req)).2 } := by
    rw [cmGet_true_miss w _ h1 h2]
  have he1 : executeGaql w req (.ok .pyListNil) =
      (.ok .pyListNil, { w with
        lru := (lruGet w.lru (gaqlCacheKey req)).2,
        quota := quotaCharge w.quota req.client_id 10 }) := by
    rw [executeGaql_miss w req _ hc hmiss, hcm1,
      gaqlAfterCache_ok ({ w with
        lru := (lruGet w.lru (gaqlCacheKey req)).2 }) req _ hp hcr,
      gaqlSuccess_nocache _ req _ hnc]
  have hcacheEq : ({ w with
      lru := (lruGet w.lru (gaqlCacheKey req)).2,
      quota := quotaCharge w.quota req.client_id 10 } : World).lru.cache =
      w.lru.cache := lruGet_miss_cache w.lru _ h1
  have h1b : (lruGet ({ w with
      lru := (lruGet w.lru (gaqlCacheKey req)).2,
      quota := quotaCharge w.quota req.client_id 10 } : World).lru
      (gaqlCacheKey req)).1 = .pynone :=
    (lruGet_fst_eq_of_cache_eq _ w.lru _ hcacheEq).trans h1
  have hmiss2 : (cmGet ({ w with
      lru := (lruGet w.lru (gaqlCacheKey req)).2,
      quota := quotaCharge w.quota req.client_id 10 } : World)
      (gaqlCacheKey req)).1 = .pynone := by
    rw [cmGet_true_miss _ _ h1b h2]
  have hcm2 : (cmGet ({ w with
      lru := (lruGet w.lru (gaqlCacheKey req)).2,
      quota := quotaCharge w.quota req.client_id 10 } : World)
      (gaqlCacheKey req)).2 =
      { w with
        lru := (lruGet ({ w with
          lru := (lruGet w.lru (gaqlCacheKey req)).2,
          quota := quotaCharge w.quota req.client_id 10 } : World).lru
          (gaqlCacheKey req)).2,
        quota := quotaCharge w.quota req.client_id 10 } := by
    rw [cmGet_true_miss _ _ h1b h2]
  have he2 : executeGaql ({ w with
      lru := (lruGet w.lru (gaqlCacheKey req)).2,
      quota := quotaCharge w.quota req.client_id 10 } : World) req
      (.ok .pyListNil) =
      (.ok .pyListNil, { w with
        lru := (lruGet ({ w with
          lru := (lruGet w.lru (gaqlCacheKey req)).2,
          quota := quotaCharge w.quota req.client_id 10 } : World).lru
          (gaqlCacheKey req)).2,
        quota := quotaCharge (quotaCharge w.quota req.client_id 10)
          req.client_id 10 }) := by
    rw [executeGaql_miss _ req _ hc hmiss2, hcm2,
      gaqlAfterCache_ok ({ w with
        lru := (lruGet ({ w with
          lru := (lruGet w.lru (gaqlCacheKey req)).2,
          quota := quotaCharge w.quota req.client_id 10 } : World).lru
          (gaqlCacheKey req)).2,
        quota := quotaCharge w.quota req.client_id 10 }) req _ hp hcr2,
      gaqlSuccess_nocache _ req _ hnc]
  refine ⟨?_, ?_, ?_, ?_, ?_, ?_, fun c k => lruSet_pynone_get_miss c k⟩
  · rw [he1]
  · rw [he1]
    exact hcacheEq
  · rw [he1]
  · rw [he1]
  · rw [he1, he2]
  · rw [he1, he2]

/-- Concrete request and world for the C10 witness. -/
def c10Req : GAQLRequest :=
  ⟨"SELECT ad_group.id FROM ad_group", "t9", 500, true, "reporting"⟩

def c10World : World :=
  { lru := ⟨100, [], 0, 0, 0, 0⟩,
    redisCache := [],
    quota := fun _ => .ok (some 1000),
    tier := fun _ => .gold,
    paused := fun _ => false }

/-- Witness for C10: the empty read succeeds and two identical reads each
debit 10 units from the global balance (1000 → 980): no cache hit ever
short-circuits the second read. -/
theorem empty_result_not_cached_witness :
    (executeGaql c10World c10Req (.ok .pyListNil)).1 = .ok .pyListNil ∧
    readBal (executeGaql (executeGaql c10World c10Req (.ok .pyListNil)).2
        c10Req (.ok .pyListNil)).2.quota globalRemainingKey = 980 := by
  have h := empty_result_not_cached c10World c10Req rfl rfl rfl rfl rfl rfl
  refine ⟨h.1, ?_⟩
  rw [h.2.2.2.2.2.1]
  rfl

end Nucleus
